import Mathlib

/-!
Shallow embedding of the logic-simulator front end (names table, scanner,
parser device branch and end-of-pass checks) of the GF2 Team 11 repository,
together with theorems settling the specification claims.

Conventions of the embedding:
* Python strings are `String`, machine integers are `Nat`/`Int` (Python ints
  are unbounded, so no wrap-around is modelled).
* A value whose Python type can vary (e.g. an argument that may fail an
  `isinstance` check) is a `PyVal`.
* Raised exceptions are modelled with `Except`/`Option` results; because a
  Python exception propagates while leaving already-performed attribute
  mutations in place, fallible operations return the mutated state alongside
  the error.
* The source files are ASCII; character classification (`isalpha`,
  `isdigit`, `isspace`) is modelled on the ASCII fragment.
-/

/-- A dynamically typed Python value, as far as the claims need one:
a text string, an integer, or some other non-string non-integer object
(`float` stands for any such value). -/
inductive PyVal where
  | str (s : String)
  | int (n : Int)
  | float
deriving DecidableEq

/-- The two contract-violation exception kinds raised by the core API. -/
inductive PyErr where
  | typeError
  | valueError
deriving DecidableEq

/-- `True` exactly on string values. -/
def PyVal.isStr : PyVal → Bool
  | .str _ => true
  | _ => false

/-- `True` exactly on integer values. -/
def PyVal.isInt : PyVal → Bool
  | .int _ => true
  | _ => false

/-- Python `int(s)` on the strings the scanner interns: a non-empty run of
ASCII digits parses to its value, anything else raises `ValueError`
(modelled as `none`).  Interned token strings are never signed or padded,
so the sign/whitespace trimming of the real `int` is not reachable here. -/
def pyInt (s : String) : Option Nat :=
  if s.toList ≠ [] ∧ s.toList.all Char.isDigit then
    some (s.toList.foldl (fun a c => a * 10 + (c.toNat - 48)) 0)
  else
    none

/-! ## names.py -/

/-- State of `Names` (src/final/names.py): the interned strings in insertion
order and the running error-code counter. -/
structure NamesState where
  names_list : List String
  error_code_count : Nat
deriving DecidableEq

/-- A fresh `Names()` instance. -/
def NamesState.init : NamesState := ⟨[], 0⟩

/-- Python `list.index`: index of the first occurrence, `none` when absent
(the real method raises `ValueError`, which `names.py` always catches). -/
def firstIdx (l : List String) (s : String) : Option Nat :=
  match l with
  | [] => none
  | x :: xs => if x = s then some 0 else (firstIdx xs s).map (· + 1)

/-- The body of one iteration of `Names.lookup`: return the index of the
string, appending it first when absent. -/
def Names.intern (s : String) (st : NamesState) : Nat × NamesState :=
  match firstIdx st.names_list s with
  | some i => (i, st)
  | none => (st.names_list.length, { st with names_list := st.names_list ++ [s] })

/-- `Names.query`: pure lookup, `None` when absent.  (The `TypeError` branch
for a non-string argument is not needed by any claim; the parser only ever
passes string literals.) -/
def Names.query (st : NamesState) (s : String) : Option Nat :=
  firstIdx st.names_list s

/-- `Names.get_name_string` on a valid non-negative id; ids at or beyond the
table size give `none` (Python `None`).  The `TypeError`/`ValueError`
branches for non-integer and negative arguments cannot arise from the
`Nat`-typed callers embedded here. -/
def Names.get_name_string (st : NamesState) (name_id : Nat) : Option String :=
  st.names_list.get? name_id

/-- `Names.lookup` on a list of Python values.  Returns the (possibly
mutated) state and `some ids` on success, or the state as already mutated
at the point a non-string element raised `TypeError` (`none`). -/
def Names.lookup (vs : List PyVal) (st : NamesState) : NamesState × Option (List Nat) :=
  match vs with
  | [] => (st, some [])
  | .str s :: rest =>
    let r₁ := Names.intern s st
    let r₂ := Names.lookup rest r₁.2
    match r₂.2 with
    | some ids => (r₂.1, some (r₁.1 :: ids))
    | none => (r₂.1, none)
  | _ :: _ => (st, none)

/-- `Names.unique_error_codes`: `TypeError` for a non-integer argument,
`ValueError` for `n ≤ 0`, otherwise the contiguous range
`range(error_code_count - n, error_code_count)` after bumping the counter. -/
def Names.unique_error_codes (v : PyVal) (st : NamesState) :
    NamesState × Except PyErr (List Nat) :=
  match v with
  | .int n =>
    if n ≤ 0 then (st, .error .valueError)
    else ({ st with error_code_count := st.error_code_count + n.toNat },
          .ok (List.range' st.error_code_count n.toNat))
  | _ => (st, .error .typeError)

/-! ## scanner.py -/

/-- ScanSym types, in the order of `Scanner.symbol_type_list`. -/
inductive SymType where
  | FULLSTOP
  | SEMICOLON
  | KEYWORD
  | NUMBER
  | NAME
  | INVALID
  | EOF
deriving DecidableEq

/-- A `ScanSym` as built by `Scanner.get_symbol` (the unused `line` field is
omitted). -/
structure ScanSym where
  type : SymType
  id : Nat
  pos : Nat
deriving DecidableEq

/-- `Scanner.keywords_list`. -/
def keywords_list : List String :=
  ["define", "connect", "monitor", "END", "as", "XOR", "DTYPE", "CLOCK",
   "SWITCH", "state", "NAND", "AND", "OR", "NOR", "inputs", "period", "to",
   "Q", "QBAR", "DATA", "CLK", "SET", "CLEAR"]

/-- Scanner state: the file contents with the read cursor (`file.tell()`),
the `current_character` (`none` models Python's empty string at EOF), the
shared names table, and the error bookkeeping attributes. -/
structure ScannerState where
  content : List Char
  pos : Nat
  cur : Option Char
  names : NamesState
  error_count : Nat
  last_semicolon_pos : Nat
  last_last_semicolon_pos : Nat
  last_comment_pos : Nat
  error_message_list : List PyVal
deriving DecidableEq

/-- Python `str.isspace` on the ASCII whitespace characters. -/
def pyIsSpace (c : Char) : Bool :=
  c = ' ' || c = '\t' || c = '\n' || c = '\x0d' || c = '\x0b' || c = '\x0c'

/-- Python `str.isalnum` (ASCII fragment). -/
def pyIsAlnum (c : Char) : Bool :=
  c.isAlpha || c.isDigit

/-- `file.read(1)` at an absolute position: the character there and the new
cursor, or `none` with the cursor unmoved at end of file. -/
def read1 (content : List Char) (pos : Nat) : Option Char × Nat :=
  match content.get? pos with
  | some c => (some c, pos + 1)
  | none => (none, pos)

/-- Closed form of the `skip_spaces` read loop: the cursor after skipping
the maximal whitespace run from `pos` plus one more read, and the first
non-whitespace character (or `none` at end of file). -/
def skipSpacesCore (content : List Char) (pos : Nat) : Nat × Option Char :=
  let k := ((content.drop pos).takeWhile pyIsSpace).length
  match content.get? (pos + k) with
  | some c => (pos + k + 1, some c)
  | none => (pos + k, none)

/-- `Scanner.skip_spaces`. -/
def Scanner.skip_spaces (s : ScannerState) : ScannerState :=
  let r := skipSpacesCore s.content s.pos
  { s with pos := r.1, cur := r.2 }

/-- Closed form of the read loop in `Scanner.get_name`: called with the
already-read first letter `z`, it collects the maximal alphanumeric run
starting at `pos` and seeks back to just after its last character. -/
def getNameCore (content : List Char) (pos : Nat) (z : Char) : String × Nat :=
  let run := (content.drop pos).takeWhile pyIsAlnum
  (String.mk (z :: run), pos + run.length)

/-- Closed form of the read loop in `Scanner.get_number`. -/
def getNumberCore (content : List Char) (pos : Nat) (z : Char) : String × Nat :=
  let run := (content.drop pos).takeWhile Char.isDigit
  (String.mk (z :: run), pos + run.length)

/-- `Scanner.skip_comment`: read until the closing `#` or end of file,
record `last_comment_pos = file.tell()` and leave the closing character in
`current_character`. -/
def Scanner.skip_comment (s : ScannerState) : ScannerState :=
  match (s.content.drop s.pos).findIdx? (· = '#') with
  | some i =>
    { s with pos := s.pos + i + 1, cur := some '#', last_comment_pos := s.pos + i + 1 }
  | none =>
    let stop := s.pos + (s.content.drop s.pos).length
    { s with pos := stop, cur := none, last_comment_pos := stop }

/-- The classification part of `Scanner.get_symbol`, entered once
`skip_spaces` has run and the current character is not `#`.  The branch
order follows the source: letter, digit, `.`, `;`, end of file, invalid. -/
def classifySym (s : ScannerState) : ScanSym × ScannerState :=
  match s.cur with
  | none =>
    let r := Names.intern "" s.names
    (⟨SymType.EOF, r.1, s.pos⟩, { s with names := r.2 })
  | some c =>
    if c.isAlpha then
      let nrun := getNameCore s.content s.pos c
      let t := if nrun.1 ∈ keywords_list then SymType.KEYWORD else SymType.NAME
      let r := Names.intern nrun.1 s.names
      (⟨t, r.1, nrun.2⟩, { s with pos := nrun.2, names := r.2 })
    else if c.isDigit then
      let nrun := getNumberCore s.content s.pos c
      let r := Names.intern nrun.1 s.names
      (⟨SymType.NUMBER, r.1, nrun.2⟩, { s with pos := nrun.2, names := r.2 })
    else if c = '.' then
      let r := Names.intern "." s.names
      (⟨SymType.FULLSTOP, r.1, s.pos⟩, { s with names := r.2 })
    else if c = ';' then
      let r := Names.intern ";" s.names
      (⟨SymType.SEMICOLON, r.1, s.pos⟩,
       { s with names := r.2, last_last_semicolon_pos := s.last_semicolon_pos,
                last_semicolon_pos := s.pos })
    else
      let r := Names.intern (String.mk [c]) s.names
      (⟨SymType.INVALID, r.1, s.pos⟩, { s with names := r.2 })

/-- `Scanner.get_symbol`, with explicit fuel for the self-call after a
skipped comment.  The fuel-exhausted branch is unreachable for the fuel
supplied by `Scanner.get_symbol` below. -/
def getSymbolAux : Nat → ScannerState → ScanSym × ScannerState
  | 0, s => (⟨SymType.EOF, 0, s.pos⟩, s)
  | fuel + 1, s =>
    let s₁ := Scanner.skip_spaces s
    if s₁.cur = some '#' then
      getSymbolAux fuel (Scanner.skip_comment s₁)
    else
      classifySym s₁

/-- `Scanner.get_symbol`.  Each comment skip advances the cursor, so
`content.length + 1` steps always suffice. -/
def Scanner.get_symbol (s : ScannerState) : ScanSym × ScannerState :=
  getSymbolAux (s.content.length + 1) s

/-- `file.readline()` from `pos`: the cursor ends just after the next
newline, or at end of file when there is none. -/
def readlineEnd (content : List Char) (pos : Nat) : Nat :=
  match (content.drop pos).findIdx? (· = '\n') with
  | some i => pos + i + 1
  | none => pos + (content.drop pos).length

/-- The statement-boundary position `Scanner.display_error` seeks back to:
the closer of the last semicolon and the last comment close (one semicolon
further back when the current character is itself a `;`). -/
def displayBoundary (s : ScannerState) : Nat :=
  if s.last_semicolon_pos > s.last_comment_pos then
    if s.cur = some ';' then s.last_last_semicolon_pos else s.last_semicolon_pos
  else
    s.last_comment_pos

/-- The cursor position from which `display_error` reprints the line: the
boundary itself when it is 0, otherwise the first non-whitespace position
at or after it (`skip_spaces` followed by `seek(tell() - 1)`). -/
def displaySeekPos (s : ScannerState) : Nat :=
  let b := displayBoundary s
  if b = 0 then 0
  else (skipSpacesCore s.content b).1 - 1

/-- `Scanner.display_error`.  The error counter is incremented and the
message appended before anything else; the seek to the statement boundary
also happens before the message type check, so a non-string message raises
`TypeError` only after those mutations (the state at raise time is
returned alongside the error).  On the string path the caret branch
reprints the line with `readline()` and, either way, `last_semicolon_pos`
is set to the final `file.tell()` — the saved entry position is never
restored.  Printed output is not modelled. -/
def Scanner.display_error (message : PyVal) (caret : Bool) (s : ScannerState) :
    ScannerState × Except PyErr Unit :=
  let s₁ := { s with error_count := s.error_count + 1,
                     error_message_list := s.error_message_list ++ [message] }
  let b := displayBoundary s₁
  let s₂ :=
    if b = 0 then { s₁ with pos := 0 }
    else
      let s' := Scanner.skip_spaces { s₁ with pos := b }
      { s' with pos := s'.pos - 1 }
  match message with
  | .str _ =>
    let s₃ := if caret then { s₂ with pos := readlineEnd s₂.content s₂.pos } else s₂
    ({ s₃ with last_semicolon_pos := s₃.pos }, .ok ())
  | _ => (s₂, .error .typeError)

/-- The names table after `Scanner.__init__` has interned the keyword
list. -/
def initNames : NamesState :=
  (Names.lookup (keywords_list.map PyVal.str) NamesState.init).1

/-- A scanner freshly constructed on the given source text. -/
def mkScanner (content : List Char) : ScannerState :=
  ⟨content, 0, none, initNames, 0, 0, 0, 0, []⟩

/-- Repeated `get_symbol` until an EOF symbol is produced (with fuel),
collecting the symbols including the final EOF. -/
def tokenizeAux : Nat → ScannerState → List ScanSym
  | 0, _ => []
  | fuel + 1, s =>
    let (sym, s') := Scanner.get_symbol s
    if sym.type = SymType.EOF then [sym] else sym :: tokenizeAux fuel s'

/-- The full token stream of a source text. -/
def tokenize (content : List Char) : List ScanSym :=
  tokenizeAux (content.length + 1) (mkScanner content)

/-! ## Device / network / monitor collaborators

`devices.py`, `network.py` and `monitors.py` are not part of the sources;
only `parse.py` and the tests call them.  The pieces the parser relies on
are modelled from the spec below. -/

/-- Device kinds (spec section 3).  `parse.py` passes the names-table id of
the kind keyword; the closed enumeration stands for those ids here. -/
inductive DKind where
  | SWITCH
  | AND
  | OR
  | NAND
  | NOR
  | XOR
  | DTYPE
  | CLOCK
  | SIGGEN
deriving DecidableEq

/-- Kind-specific qualifier as passed by `Parser.device`: a switch level, a
gate input count, a clock half-period, a SIGGEN level sequence, or nothing
(DTYPE, XOR). -/
inductive DQual where
  | noQual
  | level (n : Nat)
  | numInputs (n : Nat)
  | halfPeriod (n : Nat)
  | wave (w : List Nat)
deriving DecidableEq

/-- The `make_device` statuses the parser distinguishes. -/
inductive MDStatus where
  | NO_ERROR
  | DEVICE_PRESENT
  | INVALID_QUALIFIER
deriving DecidableEq

/-- One stored device: its kind and qualifier. -/
structure DevRec where
  device_kind : DKind
  qual : DQual
deriving DecidableEq

/-- Modelled from the spec: the device store of `devices.py` (absent from
src/), keyed by name id in creation order. -/
structure DevicesState where
  devs : List (Nat × DevRec)
deriving DecidableEq

/-- Whether a name id already names a device. -/
def DevicesState.hasDev (d : DevicesState) (i : Nat) : Bool :=
  d.devs.any (fun p => p.1 = i)

/-- Modelled from the spec: `Devices.make_device` (section 4.4) returns
`DEVICE_PRESENT` when the name id is already used, `INVALID_QUALIFIER` for
a gate input count outside 1..16 or a clock half-period below 1 (sections
4.2-4.3), and otherwise records the device and returns `NO_ERROR`. -/
def qualOk (kind : DKind) (q : DQual) : Bool :=
  match kind, q with
  | .AND, .numInputs n => 1 ≤ n && n ≤ 16
  | .OR, .numInputs n => 1 ≤ n && n ≤ 16
  | .NAND, .numInputs n => 1 ≤ n && n ≤ 16
  | .NOR, .numInputs n => 1 ≤ n && n ≤ 16
  | .CLOCK, .halfPeriod n => 1 ≤ n
  | _, _ => true

def Devices.make_device (i : Nat) (kind : DKind) (q : DQual) (d : DevicesState) :
    MDStatus × DevicesState :=
  if d.hasDev i then (.DEVICE_PRESENT, d)
  else if qualOk kind q then (.NO_ERROR, { devs := d.devs ++ [(i, ⟨kind, q⟩)] })
  else (.INVALID_QUALIFIER, d)

/-- Modelled from the spec: the network's declared input ports and the set
of already-connected input ports, which is all `check_network` needs
(section 4.4). -/
structure NetworkState where
  inputs : List (Nat × Nat)
  connected : List (Nat × Nat)
deriving DecidableEq

/-- Modelled from the spec: `Network.check_network` returns every declared
input port that lacks a connection. -/
def Network.check_network (nw : NetworkState) : List (Nat × Nat) :=
  nw.inputs.filter (fun ip => ¬ nw.connected.contains ip)

/-- Modelled from the spec: the monitor store's `monitors_dictionary`,
keyed by `(device_id, output_port_id)`; `parse_network` only reads its
size. -/
structure MonitorsState where
  monitors_dictionary : List (Nat × Option Nat)
deriving DecidableEq

/-! ## parse.py — token-level embedding

The parser is a pure consumer of `Scanner.get_symbol`, so it is embedded
over the scanner's emitted token stream: `current_symbol` plus the queue
of upcoming symbols.  When the queue is exhausted `get_symbol` keeps
returning EOF symbols (interning the empty string exactly as
`scanner.py` does).  `Scanner.display_error` is represented by its
error-accumulation effect — one counter increment and one appended
message per call (its cursor bookkeeping has no token-level
observable). -/

/-- A scanner symbol as the parser consumes it (`pos` plays no role in
`parse.py`). -/
structure PSym where
  type : SymType
  id : Nat
deriving DecidableEq

/-- Parser state: `current_symbol`, the queue of upcoming symbols, the
shared names table, the device store and the scanner's error record. -/
structure ParserState where
  cur : PSym
  toks : List PSym
  names : NamesState
  devices : DevicesState
  error_count : Nat
  error_message_list : List PyVal
deriving DecidableEq

/-- `self.current_symbol = self.scanner.get_symbol()` at token level. -/
def pnext (p : ParserState) : ParserState :=
  match p.toks with
  | t :: ts => { p with cur := t, toks := ts }
  | [] =>
    let r := Names.intern "" p.names
    { p with cur := ⟨SymType.EOF, r.1⟩, names := r.2 }

/-- `self.scanner.display_error(m)` as seen from the parser: one more
error, one more logged message. -/
def perr (m : String) (p : ParserState) : ParserState :=
  { p with error_count := p.error_count + 1,
           error_message_list := p.error_message_list ++ [.str m] }

/-- `self.current_symbol.id == self.names.query(s)` (Python `int == None`
is `False`). -/
def curIs (p : ParserState) (s : String) : Bool :=
  some p.cur.id = Names.query p.names s

/-- `int(self.names.get_name_string(self.current_symbol.id))` wrapped in a
`try`: `none` when either the id is unknown (`int(None)` raises) or the
string is not a digit run. -/
def curIntValue (p : ParserState) : Option Nat :=
  (Names.get_name_string p.names p.cur.id).bind pyInt

/-- The `for name_id in name_ids: make_device(...)` loops that ignore the
returned status (SWITCH, DTYPE, XOR, SIGGEN definitions). -/
def makeAll (ids : List Nat) (kind : DKind) (q : DQual) (d : DevicesState) : DevicesState :=
  match ids with
  | [] => d
  | i :: rest => makeAll rest kind q (Devices.make_device i kind q d).2

/-- The gate/clock `make_device` loops, which stop and report on the first
`INVALID_QUALIFIER` status.  `true` means that error path was taken; the
device store is returned as mutated so far either way (`self.devices` is
shared state in the source). -/
def makeAllChecked (ids : List Nat) (kind : DKind) (q : DQual) (d : DevicesState) :
    Bool × DevicesState :=
  match ids with
  | [] => (false, d)
  | i :: rest =>
    let r := Devices.make_device i kind q d
    if r.1 = MDStatus.INVALID_QUALIFIER then (true, r.2)
    else makeAllChecked rest kind q r.2

/-- Result of the SIGGEN `while` loop: the accumulated waveform and the
`definition_complete` flag, or `none` when an error aborted the loop. -/
def siggenLoop : Nat → List Nat → Bool → ParserState →
    Option (List Nat × Bool) × ParserState
  | 0, _, _, p => (none, p)
  | fuel + 1, waveform, complete, p =>
    if curIs p "waveform" then (some (waveform, complete), p)
    else if ¬ (curIs p "0" || curIs p "1") then
      (none, perr "Expected 0 or 1 or keyword \'waveform\'" p)
    else
      let level := (curIntValue p).getD 0
      let p := pnext p
      if ¬ curIs p "for" then (none, perr "Expected keyword \'for\'" p)
      else
        let p := pnext p
        match curIntValue p with
        | none => (none, perr "Expected integer number of cycles" p)
        | some multiple =>
          if multiple = 0 then
            (none, perr "Number of cycles must be greater than 0" p)
          else
            let p := pnext p
            if ¬ curIs p "cycles" then (none, perr "Expected keyword \'cycles\'" p)
            else siggenLoop fuel (waveform ++ List.replicate multiple level) true (pnext p)

/-- `Parser.device`.  Entered with `current_symbol` on the device-type
token; returns the source's boolean together with the final state.  The
`level` read in the SIGGEN branch is `int(get_name_string(...))`, which
cannot fail there because the id was just checked to be that of "0" or
"1"; the `.getD 0` default is therefore unreachable.  The SIGGEN loop
consumes at least one queued token per iteration (or ends at EOF), so the
fuel below is always sufficient. -/
def Parser.device (name_ids : List Nat) (p : ParserState) : Bool × ParserState :=
  if curIs p "SWITCH" then
    let p := pnext p
    let state? : Option Nat :=
      if curIs p "0" then some 0
      else if curIs p "1" then some 1
      else none
    match state? with
    | none => (false, perr "Expected 0 or 1 for switch state" p)
    | some switch_state =>
      let p := pnext p
      if ¬ curIs p "state" then (false, perr "Expected keyword \'state\'" p)
      else
        (true, { p with devices := makeAll name_ids DKind.SWITCH (.level switch_state) p.devices })
  else if curIs p "NAND" || curIs p "AND" || curIs p "OR" || curIs p "NOR" then
    let gate_kind : DKind :=
      if curIs p "NAND" then .NAND
      else if curIs p "AND" then .AND
      else if curIs p "OR" then .OR
      else .NOR
    let p := pnext p
    match curIntValue p with
    | none => (false, perr "Expected integer number of inputs." p)
    | some num_inputs =>
      let p := pnext p
      if ¬ curIs p "inputs" then (false, perr "Expected keyword \'inputs\'" p)
      else
        match makeAllChecked name_ids gate_kind (.numInputs num_inputs) p.devices with
        | (true, d) =>
          (false, perr "Number of inputs must be integer in range(1, 17)" { p with devices := d })
        | (false, d) => (true, { p with devices := d })
  else if curIs p "CLOCK" then
    let p := pnext p
    if ¬ curIs p "period" then (false, perr "Expected keyword \'period\'" p)
    else
      let p := pnext p
      match curIntValue p with
      | none => (false, perr "Expected integer period." p)
      | some clock_period =>
        match makeAllChecked name_ids DKind.CLOCK (.halfPeriod (clock_period / 2)) p.devices with
        | (true, d) =>
          (false, perr "Expected half period >= 1 simulation cycle" { p with devices := d })
        | (false, d) => (true, { p with devices := d })
  else if curIs p "DTYPE" then
    (true, { p with devices := makeAll name_ids DKind.DTYPE .noQual p.devices })
  else if curIs p "XOR" then
    (true, { p with devices := makeAll name_ids DKind.XOR .noQual p.devices })
  else if curIs p "SIGGEN" then
    let p := pnext p
    match siggenLoop (p.toks.length + 2) [] false p with
    | (none, p) => (false, p)
    | (some (waveform, definition_complete), p) =>
      if ¬ definition_complete then
        (false, perr "Require waveform definition before keyword \'waveform\'" p)
      else if waveform = [] then (false, perr "Blank waveform received" p)
      else
        (true, { p with devices := makeAll name_ids DKind.SIGGEN (.wave waveform) p.devices })
  else
    (false, perr "Expected device type" p)

/-! ## parse.py — end of `parse_network`

The tail of `Parser.parse_network` (the floating-input check, the
no-monitor warning and the return value), embedded over the real scanner
state so that the aggregated diagnostic goes through
`Scanner.display_error` itself.  Printed output other than the warning is
not modelled. -/

/-- Python `str(...)` of a list of strings (no escaping arises: the display
names are alphanumeric). -/
def pyStrList (l : List String) : String :=
  "[" ++ String.intercalate ", " (l.map (fun x => "\'" ++ x ++ "\'")) ++ "]"

/-- The display name `get_name_string(dev) + "." + get_name_string(port)`
of a floating input.  Ids produced by the parser are always interned, so
the `.getD ""` defaults (where Python would raise on `None`) are
unreachable under that invariant. -/
def floatingName (nm : NamesState) (ip : Nat × Nat) : String :=
  (Names.get_name_string nm ip.1).getD "" ++ "." ++ (Names.get_name_string nm ip.2).getD ""

/-- Lines 135-154 of `parse.py`: the floating-input check, the zero-monitor
warning and the final result.  Returns the parser's boolean, the scanner
state and the warning lines printed. -/
def Parser.parse_network_end (nw : NetworkState) (mon : MonitorsState)
    (s : ScannerState) : Bool × ScannerState × List String :=
  let floating_inputs := Network.check_network nw
  let s :=
    if floating_inputs.length ≠ 0 then
      (Scanner.display_error
        (.str ("The following inputs are floating: "
          ++ pyStrList (floating_inputs.map (floatingName s.names)))) false s).1
    else s
  let warnings :=
    if mon.monitors_dictionary.length = 0 then ["Warning: No monitors specified."] else []
  (s.error_count = 0, s, warnings)

/-! ## Helper lemmas: names table -/

theorem firstIdx_cons (x : String) (xs : List String) (s : String) :
    firstIdx (x :: xs) s = if x = s then some 0 else (firstIdx xs s).map (· + 1) := rfl

theorem firstIdx_append_of_mem {l : List String} {s : String} (e : List String)
    (h : s ∈ l) : firstIdx (l ++ e) s = firstIdx l s := by
  induction l with
  | nil => simp at h
  | cons x xs ih =>
    rw [List.cons_append, firstIdx_cons, firstIdx_cons]
    by_cases hx : x = s
    · simp [hx]
    · have hs : s ∈ xs := by
        rcases List.mem_cons.mp h with rfl | hm
        · exact absurd rfl hx
        · exact hm
      rw [if_neg hx, if_neg hx, ih hs]

theorem firstIdx_eq_none_of_not_mem {l : List String} {s : String}
    (h : s ∉ l) : firstIdx l s = none := by
  induction l with
  | nil => rfl
  | cons x xs ih =>
    simp only [List.mem_cons, not_or] at h
    have hx : ¬ x = s := fun hh => h.1 hh.symm
    rw [firstIdx_cons, if_neg hx, ih h.2]
    rfl

theorem firstIdx_isSome_of_mem {l : List String} {s : String}
    (h : s ∈ l) : ∃ i, firstIdx l s = some i := by
  induction l with
  | nil => simp at h
  | cons x xs ih =>
    by_cases hx : x = s
    · exact ⟨0, by rw [firstIdx_cons, if_pos hx]⟩
    · have hs : s ∈ xs := by
        rcases List.mem_cons.mp h with rfl | hm
        · exact absurd rfl hx
        · exact hm
      obtain ⟨i, hi⟩ := ih hs
      exact ⟨i + 1, by rw [firstIdx_cons, if_neg hx, hi]; rfl⟩

theorem firstIdx_get {l : List String} {s : String} {i : Nat}
    (h : firstIdx l s = some i) : l.get? i = some s := by
  induction l generalizing i with
  | nil => simp [firstIdx] at h
  | cons x xs ih =>
    rw [firstIdx_cons] at h
    by_cases hx : x = s
    · rw [if_pos hx] at h
      cases h
      simp [hx]
    · rw [if_neg hx] at h
      cases hj : firstIdx xs s with
      | none => rw [hj] at h; simp at h
      | some j =>
        rw [hj] at h
        simp only [Option.map_some'] at h
        cases h
        simpa using ih hj

/-- Distinct strings never share a table index. -/
theorem query_inj {st : NamesState} {a b : String} {i : Nat}
    (ha : Names.query st a = some i) (hb : Names.query st b = some i) : a = b := by
  have h₁ := firstIdx_get ha
  have h₂ := firstIdx_get hb
  rw [h₁] at h₂
  exact Option.some_inj.mp h₂

theorem intern_extends (s : String) (st : NamesState) :
    (∃ ext, ((Names.intern s st).2).names_list = st.names_list ++ ext)
    ∧ ((Names.intern s st).2).error_code_count = st.error_code_count := by
  cases h : firstIdx st.names_list s with
  | some i => exact ⟨⟨[], by simp [Names.intern, h]⟩, by simp [Names.intern, h]⟩
  | none => exact ⟨⟨[s], by simp [Names.intern, h]⟩, by simp [Names.intern, h]⟩

theorem intern_mem (s : String) (st : NamesState) :
    s ∈ ((Names.intern s st).2).names_list := by
  cases h : firstIdx st.names_list s with
  | some i =>
    have := firstIdx_get h
    simp only [Names.intern, h]
    exact List.get?_mem this
  | none => simp [Names.intern, h]

/-- `lookup` only ever appends to the table and never touches the
error-code counter. -/
theorem lookup_extends (vs : List PyVal) (st : NamesState) :
    (∃ ext, ((Names.lookup vs st).1).names_list = st.names_list ++ ext)
    ∧ ((Names.lookup vs st).1).error_code_count = st.error_code_count := by
  induction vs generalizing st with
  | nil => exact ⟨⟨[], by simp [Names.lookup]⟩, rfl⟩
  | cons v rest ih =>
    cases v with
    | str s =>
      obtain ⟨⟨e₁, he₁⟩, hc₁⟩ := intern_extends s st
      obtain ⟨⟨e₂, he₂⟩, hc₂⟩ := ih ((Names.intern s st).2)
      constructor
      · refine ⟨e₁ ++ e₂, ?_⟩
        simp only [Names.lookup]
        cases hr : (Names.lookup rest (Names.intern s st).2).2 <;>
          simp [he₂, he₁, List.append_assoc]
      · simp only [Names.lookup]
        cases hr : (Names.lookup rest (Names.intern s st).2).2 <;>
          simp [hc₂, hc₁]
    | int n => exact ⟨⟨[], by simp [Names.lookup]⟩, rfl⟩
    | float => exact ⟨⟨[], by simp [Names.lookup]⟩, rfl⟩

/-- Looking up a single string already in the table returns its index and
leaves the state unchanged. -/
theorem lookup_single_mem {st : NamesState} {s : String} {i : Nat}
    (h : firstIdx st.names_list s = some i) :
    Names.lookup [PyVal.str s] st = (st, some [i]) := by
  simp [Names.lookup, Names.intern, h]

/-! ## Claim C8 — lookup idempotence and fresh-batch ids -/

theorem lookup_fresh_batch (ks : List String) :
    ∀ (st : NamesState), ks.Nodup → (∀ k ∈ ks, k ∉ st.names_list) →
    Names.lookup (ks.map PyVal.str) st
      = (⟨st.names_list ++ ks, st.error_code_count⟩,
         some (List.range' st.names_list.length ks.length)) := by
  induction ks with
  | nil => intro st _ _; simp [Names.lookup]
  | cons k rest ih =>
    intro st hnd hfresh
    have hk : firstIdx st.names_list k = none :=
      firstIdx_eq_none_of_not_mem (hfresh k (by simp))
    have hrec := ih ⟨st.names_list ++ [k], st.error_code_count⟩
      (List.Nodup.of_cons hnd)
      (by
        intro x hx
        simp only [List.mem_append, List.mem_singleton, not_or]
        refine ⟨hfresh x (by simp [hx]), ?_⟩
        intro hxk
        subst hxk
        exact (List.nodup_cons.mp hnd).1 hx)
    simp only [List.map_cons, Names.lookup, Names.intern, hk]
    rw [hrec]
    simp [List.range'_succ, List.append_assoc]

/--
C8: `lookup` is idempotent — a string already in the table keeps its id
across any later `lookup` call (which also leaves the table unchanged for
that string) — and a batch of `k` pairwise-distinct brand-new strings
receives the `k` consecutive increasing ids starting at the current table
size.
-/
theorem C8_lookup_idempotent_and_fresh :
    (∀ (st : NamesState) (s : String) (i : Nat) (ys : List PyVal),
      firstIdx st.names_list s = some i →
      Names.lookup [PyVal.str s] st = (st, some [i])
      ∧ (Names.lookup [PyVal.str s] ((Names.lookup ys st).1)).2 = some [i])
    ∧ (∀ (st : NamesState) (ks : List String),
      ks.Nodup → (∀ k ∈ ks, k ∉ st.names_list) →
      (Names.lookup (ks.map PyVal.str) st).2
        = some (List.range' st.names_list.length ks.length)) := by
  constructor
  · intro st s i ys h
    refine ⟨lookup_single_mem h, ?_⟩
    obtain ⟨⟨ext, hext⟩, _⟩ := lookup_extends ys st
    have hmem : s ∈ st.names_list := List.get?_mem (firstIdx_get h)
    have h' : firstIdx ((Names.lookup ys st).1).names_list s = some i := by
      rw [hext, firstIdx_append_of_mem ext hmem]
      exact h
    rw [lookup_single_mem h']
  · intro st ks hnd hfresh
    rw [lookup_fresh_batch ks st hnd hfresh]

/-- Witness for C8 at concrete inputs. -/
theorem C8_lookup_idempotent_and_fresh_witness :
    Names.lookup [PyVal.str "James"] ⟨["James", "Anna"], 0⟩
      = (⟨["James", "Anna"], 0⟩, some [0])
    ∧ (Names.lookup (["Anna", "Neelay"].map PyVal.str) ⟨["James"], 0⟩).2
      = some [1, 2] := by
  constructor
  · exact (C8_lookup_idempotent_and_fresh.1 ⟨["James", "Anna"], 0⟩ "James" 0 []
      (by decide)).1
  · exact C8_lookup_idempotent_and_fresh.2 ⟨["James"], 0⟩ ["Anna", "Neelay"]
      (by decide) (by decide)

/-! ## Claim C10 — lookup is not atomic on failure -/

theorem lookup_prefix_interned (js : List String) :
    ∀ (st : NamesState) (v : PyVal) (rest : List PyVal), v.isStr = false →
    (Names.lookup (js.map PyVal.str ++ v :: rest) st).2 = none
    ∧ (∀ x ∈ js, x ∈ ((Names.lookup (js.map PyVal.str ++ v :: rest) st).1).names_list) := by
  induction js with
  | nil =>
    intro st v rest hv
    cases v with
    | str s => simp [PyVal.isStr] at hv
    | int n => simp [Names.lookup]
    | float => simp [Names.lookup]
  | cons j js' ih =>
    intro st v rest hv
    obtain ⟨hnone, hmem⟩ := ih ((Names.intern j st).2) v rest hv
    constructor
    · simp only [List.map_cons, List.cons_append, Names.lookup, List.append_eq, hnone]
    · intro x hx
      have hres :
          ((Names.lookup ((j :: js').map PyVal.str ++ v :: rest) st).1).names_list
            = ((Names.lookup (js'.map PyVal.str ++ v :: rest) ((Names.intern j st).2)).1).names_list := by
        simp only [List.map_cons, List.cons_append, Names.lookup, List.append_eq, hnone]
      rcases List.mem_cons.mp hx with rfl | hx'
      · rw [hres]
        obtain ⟨⟨ext, hext⟩, _⟩ :=
          lookup_extends (js'.map PyVal.str ++ v :: rest) ((Names.intern x st).2)
        rw [hext]
        exact List.mem_append_left ext (intern_mem x st)
      · rw [hres]
        exact hmem x hx'

/--
C10: `lookup` is not atomic on failure — when the leading elements are
fresh strings and a later element is not a string, the call raises
`TypeError`, yet the leading strings have already been interned, so the
table has grown.
-/
theorem C10_lookup_not_atomic :
    ∀ (st : NamesState) (js : List String) (v : PyVal) (rest : List PyVal),
    (∀ x ∈ js, x ∉ st.names_list) → v.isStr = false →
    (Names.lookup (js.map PyVal.str ++ v :: rest) st).2 = none
    ∧ (∀ x ∈ js, x ∈ ((Names.lookup (js.map PyVal.str ++ v :: rest) st).1).names_list)
    ∧ (js ≠ [] →
       st.names_list.length
         < ((Names.lookup (js.map PyVal.str ++ v :: rest) st).1).names_list.length) := by
  intro st js v rest hfresh hv
  obtain ⟨hnone, hmem⟩ := lookup_prefix_interned js st v rest hv
  refine ⟨hnone, hmem, ?_⟩
  intro hne
  obtain ⟨j, js', rfl⟩ := List.exists_cons_of_ne_nil hne
  obtain ⟨⟨ext, hext⟩, _⟩ := lookup_extends ((j :: js').map PyVal.str ++ v :: rest) st
  have hj : j ∈ st.names_list ++ ext := by
    rw [← hext]
    exact hmem j (by simp)
  have hjext : j ∈ ext := by
    rcases List.mem_append.mp hj with h | h
    · exact absurd h (hfresh j (by simp))
    · exact h
  have hne' : ext ≠ [] := by
    intro h
    rw [h] at hjext
    simp at hjext
  rw [hext, List.length_append]
  have : 0 < ext.length := List.length_pos.mpr hne'
  omega

/-- Witness for C10 at concrete inputs. -/
theorem C10_lookup_not_atomic_witness :
    (Names.lookup [PyVal.str "a", PyVal.str "b", PyVal.int 3] ⟨[], 0⟩).2 = none
    ∧ (∀ x ∈ ["a", "b"], x ∈ ((Names.lookup [PyVal.str "a", PyVal.str "b", PyVal.int 3] ⟨[], 0⟩).1).names_list)
    ∧ (0 : Nat) < ((Names.lookup [PyVal.str "a", PyVal.str "b", PyVal.int 3] ⟨[], 0⟩).1).names_list.length := by
  have h := C10_lookup_not_atomic ⟨[], 0⟩ ["a", "b"] (PyVal.int 3) []
    (by decide) (by decide)
  exact ⟨h.1, h.2.1, h.2.2 (by decide)⟩

/-! ## Claim C7 — unique_error_codes -/

/-- An operation on a shared `Names` instance, for stating properties of
whole call sequences. -/
inductive NamesOp where
  | uec (v : PyVal)
  | look (vs : List PyVal)

/-- Run one operation, returning the issued error-code ranges (at most
one, and none for a `lookup` or a failed call). -/
def runOp : NamesOp → NamesState → NamesState × List (List Nat)
  | .uec v, st =>
    let r := Names.unique_error_codes v st
    (r.1, match r.2 with | .ok codes => [codes] | .error _ => [])
  | .look vs, st => ((Names.lookup vs st).1, [])

/-- Run a sequence of operations, collecting every issued range. -/
def runOps : List NamesOp → NamesState → NamesState × List (List Nat)
  | [], st => (st, [])
  | op :: ops, st =>
    let r₁ := runOp op st
    let r₂ := runOps ops r₁.1
    (r₂.1, r₁.2 ++ r₂.2)

theorem runOp_ecc_le (op : NamesOp) (st : NamesState) :
    st.error_code_count ≤ ((runOp op st).1).error_code_count := by
  cases op with
  | uec v =>
    cases v with
    | int n =>
      by_cases h : n ≤ 0 <;>
        simp [runOp, Names.unique_error_codes, h]
    | str s => simp [runOp, Names.unique_error_codes]
    | float => simp [runOp, Names.unique_error_codes]
  | look vs =>
    simp only [runOp]
    exact le_of_eq (lookup_extends vs st).2.symm

theorem runOp_range_bounds (op : NamesOp) (st : NamesState) :
    ∀ r ∈ (runOp op st).2, ∀ x ∈ r,
      st.error_code_count ≤ x ∧ x < ((runOp op st).1).error_code_count := by
  cases op with
  | uec v =>
    cases v with
    | int n =>
      by_cases h : n ≤ 0
      · simp [runOp, Names.unique_error_codes, h]
      · intro r hr x hx
        simp only [runOp, Names.unique_error_codes, if_neg h, List.mem_singleton] at hr
        subst hr
        have hx' := List.mem_range'_1.mp hx
        simp only [runOp, Names.unique_error_codes, if_neg h]
        omega
    | str s => simp [runOp, Names.unique_error_codes]
    | float => simp [runOp, Names.unique_error_codes]
  | look vs => simp [runOp]

theorem runOps_range_lb (ops : List NamesOp) :
    ∀ (st : NamesState), ∀ r ∈ (runOps ops st).2, ∀ x ∈ r,
      st.error_code_count ≤ x := by
  induction ops with
  | nil => simp [runOps]
  | cons op rest ih =>
    intro st r hr x hx
    simp only [runOps, List.mem_append] at hr
    rcases hr with hr | hr
    · exact ((runOp_range_bounds op st r hr x hx)).1
    · exact le_trans (runOp_ecc_le op st) (ih (runOp op st).1 r hr x hx)

theorem runOps_pairwise_disjoint (ops : List NamesOp) :
    ∀ (st : NamesState), ((runOps ops st).2).Pairwise List.Disjoint := by
  induction ops with
  | nil => intro st; simp [runOps]
  | cons op rest ih =>
    intro st
    simp only [runOps]
    rw [List.pairwise_append]
    refine ⟨?_, ih (runOp op st).1, ?_⟩
    · cases op with
      | uec v =>
        cases v with
        | int n =>
          by_cases h : n ≤ 0 <;>
            simp [runOp, Names.unique_error_codes, h]
        | str s => simp [runOp, Names.unique_error_codes]
        | float => simp [runOp, Names.unique_error_codes]
      | look vs => simp [runOp]
    · intro r₁ hr₁ r₂ hr₂ x hx₁ hx₂
      have hub := (runOp_range_bounds op st r₁ hr₁ x hx₁).2
      have hlb := runOps_range_lb rest (runOp op st).1 r₂ hr₂ x hx₂
      omega

/-- State witnessing that error codes overlap NameIds: a table holding one
interned string. -/
def namesC7 : NamesState := (Names.lookup [PyVal.str "James"] NamesState.init).1

/--
C7 counterexample: error codes are NOT disjoint from NameIds.  With
"James" interned at NameId 0, the first `unique_error_codes(1)` call
returns `range(0, 1)`, so 0 is simultaneously an issued NameId and an
issued error code — refuting the claimed disjointness from NameIds.
-/
theorem C7_counterexample_overlaps_nameids :
    (Names.unique_error_codes (PyVal.int 1) namesC7).2 = Except.ok [0]
    ∧ Names.query namesC7 "James" = some 0 := by
  constructor <;> rfl

/--
C7 amended: `unique_error_codes(n)` returns the contiguous range of `n`
integers `[count, count + n)` and bumps the counter, so over any sequence
of `Names` operations the issued ranges are pairwise disjoint; it raises
`TypeError` for a non-integer argument and `ValueError` for `n ≤ 0`.  The
ranges are, however, not disjoint from NameIds (both count from 0).
-/
theorem C7_amended_unique_error_codes :
    (∀ (st : NamesState) (n : Int), 0 < n →
      Names.unique_error_codes (PyVal.int n) st
        = ({ st with error_code_count := st.error_code_count + n.toNat },
           Except.ok (List.range' st.error_code_count n.toNat)))
    ∧ (∀ (ops : List NamesOp) (st : NamesState),
        ((runOps ops st).2).Pairwise List.Disjoint)
    ∧ (∀ (st : NamesState) (v : PyVal), v.isInt = false →
        Names.unique_error_codes v st = (st, Except.error PyErr.typeError))
    ∧ (∀ (st : NamesState) (n : Int), n ≤ 0 →
        Names.unique_error_codes (PyVal.int n) st = (st, Except.error PyErr.valueError)) := by
  refine ⟨?_, ?_, ?_, ?_⟩
  · intro st n hn
    simp [Names.unique_error_codes, not_le.mpr hn]
  · intro ops st
    exact runOps_pairwise_disjoint ops st
  · intro st v hv
    cases v with
    | str s => rfl
    | float => rfl
    | int n => simp [PyVal.isInt] at hv
  · intro st n hn
    simp [Names.unique_error_codes, hn]

/-- Witness for C7 at concrete inputs. -/
theorem C7_amended_unique_error_codes_witness :
    Names.unique_error_codes (PyVal.int 3) ⟨["James"], 2⟩
      = (⟨["James"], 5⟩, Except.ok [2, 3, 4])
    ∧ ((runOps [NamesOp.uec (PyVal.int 2), NamesOp.uec (PyVal.int 3)] ⟨[], 0⟩).2).Pairwise
        List.Disjoint
    ∧ Names.unique_error_codes PyVal.float ⟨[], 0⟩ = (⟨[], 0⟩, Except.error PyErr.typeError)
    ∧ Names.unique_error_codes (PyVal.int (-1)) ⟨[], 0⟩
      = (⟨[], 0⟩, Except.error PyErr.valueError) := by
  refine ⟨?_, ?_, ?_, ?_⟩
  · have h := C7_amended_unique_error_codes.1 ⟨["James"], 2⟩ 3 (by decide)
    rw [h]
    rfl
  · exact C7_amended_unique_error_codes.2.1 [NamesOp.uec (PyVal.int 2), NamesOp.uec (PyVal.int 3)] ⟨[], 0⟩
  · exact C7_amended_unique_error_codes.2.2.1 ⟨[], 0⟩ PyVal.float (by decide)
  · exact C7_amended_unique_error_codes.2.2.2 ⟨[], 0⟩ (-1) (by decide)


/-! ## Helper lemmas: parser -/

theorem curIs_iff (p : ParserState) (s : String) :
    curIs p s = true ↔ some p.cur.id = Names.query p.names s := by
  simp [curIs]

theorem curIs_true_of (p : ParserState) {s : String}
    (h : some p.cur.id = Names.query p.names s) : curIs p s = true :=
  (curIs_iff p s).mpr h

theorem curIs_false_of_query {p : ParserState} {s : String} (t : String)
    (h : some p.cur.id = Names.query p.names s) (hne : s ≠ t) :
    curIs p t = false := by
  have hq : ¬ (some p.cur.id = Names.query p.names t) := by
    intro hq
    exact hne (query_inj h.symm hq.symm)
  simp [curIs, hq]

theorem pnext_cons {p : ParserState} {t : PSym} {ts : List PSym}
    (h : p.toks = t :: ts) : pnext p = { p with cur := t, toks := ts } := by
  rw [pnext, h]

theorem hasDev_append_ne {d : DevicesState} {j i : Nat} {rec : DevRec} (h : j ≠ i) :
    DevicesState.hasDev ⟨d.devs ++ [(j, rec)]⟩ i = d.hasDev i := by
  simp only [DevicesState.hasDev, List.any_append, List.any_cons, List.any_nil]
  simp [h]

theorem hasDev_make_device_ne {d : DevicesState} {j i : Nat} {kind : DKind} {q : DQual}
    (h : j ≠ i) :
    ((Devices.make_device j kind q d).2).hasDev i = d.hasDev i := by
  unfold Devices.make_device
  by_cases hp : d.hasDev j = true
  · simp [hp]
  · simp only [Bool.not_eq_true] at hp
    by_cases hok : qualOk kind q = true
    · simp [hp, hok, hasDev_append_ne h]
    · simp [hp, hok]

/-- A `make_device` status-ignoring loop over ids that already name
devices changes nothing. -/
theorem makeAll_present {ids : List Nat} {kind : DKind} {q : DQual} {d : DevicesState}
    (h : ∀ i ∈ ids, d.hasDev i = true) : makeAll ids kind q d = d := by
  induction ids with
  | nil => rfl
  | cons i rest ih =>
    have hi := h i (by simp)
    simp only [makeAll, Devices.make_device, hi, if_pos rfl]
    exact ih (fun j hj => h j (by simp [hj]))

theorem make_device_mono {i : Nat} {kind : DKind} {q : DQual} {d : DevicesState}
    {e : Nat × DevRec} (h : e ∈ d.devs) :
    e ∈ ((Devices.make_device i kind q d).2).devs := by
  unfold Devices.make_device
  by_cases hp : d.hasDev i = true
  · simp [hp, h]
  · simp only [Bool.not_eq_true] at hp
    by_cases hok : qualOk kind q = true
    · simp [hp, hok, List.mem_append, h]
    · simp [hp, hok, h]

theorem makeAll_mono {ids : List Nat} {kind : DKind} {q : DQual} {d : DevicesState}
    {e : Nat × DevRec} (h : e ∈ d.devs) :
    e ∈ ((makeAll ids kind q d)).devs := by
  induction ids generalizing d with
  | nil => exact h
  | cons i rest ih => exact ih (make_device_mono h)

/-- A fresh id in the loop's list ends up recorded with the given kind and
qualifier, provided the qualifier passes validation. -/
theorem makeAll_mem_fresh {ids : List Nat} {kind : DKind} {q : DQual} :
    ∀ {d : DevicesState} {i : Nat}, i ∈ ids → d.hasDev i = false →
    qualOk kind q = true →
    (i, DevRec.mk kind q) ∈ ((makeAll ids kind q d)).devs := by
  induction ids with
  | nil => intro d i hmem _ _; simp at hmem
  | cons j rest ih =>
    intro d i hmem hfresh hok
    by_cases hj : j = i
    · subst hj
      simp only [makeAll, Devices.make_device, hfresh]
      simp only [Bool.false_eq_true, if_false, hok, if_pos rfl]
      exact makeAll_mono (by simp)
    · have hmem' : i ∈ rest := by
        rcases List.mem_cons.mp hmem with h | h
        · exact absurd h.symm hj
        · exact h
      have hkeep : ((Devices.make_device j kind q d).2).hasDev i = false := by
        rw [hasDev_make_device_ne hj, hfresh]
      simp only [makeAll]
      exact ih hmem' hkeep hok

/-! ## SIGGEN definitions for the claims -/

/-- The numeric value the parser extracts from a token
(`int(get_name_string(id))`, defaulted for the statement of claims). -/
def segValue (nm : NamesState) (t : PSym) : Nat :=
  ((Names.get_name_string nm t.id).bind pyInt).getD 0

/-- A well-formed SIGGEN segment: a level token whose id is that of "0" or
"1", and a count token whose string parses to a positive integer. -/
def SegOk (nm : NamesState) (sp : PSym × PSym) : Prop :=
  (some sp.1.id = Names.query nm "0" ∨ some sp.1.id = Names.query nm "1")
  ∧ ∃ n, (Names.get_name_string nm sp.2.id).bind pyInt = some n ∧ 1 ≤ n

/-- The token stream of a SIGGEN segment list
(`level for count cycles` per segment, in declaration order). -/
def segEncode (forTok cycTok : PSym) (segs : List (PSym × PSym)) : List PSym :=
  (segs.map (fun sp => [sp.1, forTok, sp.2, cycTok])).flatten

/-- The waveform the claim describes: each segment's level repeated its
declared cycle count, concatenated in declaration order. -/
def segWave (nm : NamesState) (segs : List (PSym × PSym)) : List Nat :=
  (segs.map (fun sp => List.replicate (segValue nm sp.2) (segValue nm sp.1))).flatten

/-- One successful iteration of the SIGGEN `while` loop. -/
theorem siggenLoop_step (fuel : Nat) (wf : List Nat) (complete : Bool)
    (p : ParserState) (l forTok c cycTok e : PSym) (es : List PSym)
    (hSeg : SegOk p.names (l, c))
    (hfor : some forTok.id = Names.query p.names "for")
    (hcyc : some cycTok.id = Names.query p.names "cycles")
    (hcur : p.cur = l)
    (htoks : p.toks = forTok :: c :: cycTok :: e :: es) :
    siggenLoop (fuel + 1) wf complete p
      = siggenLoop fuel (wf ++ List.replicate (segValue p.names c) (segValue p.names l))
          true { p with cur := e, toks := es } := by
  obtain ⟨pc, ptoks, pnames, pdev, pec, peml⟩ := p
  simp only at hcur htoks hSeg hfor hcyc ⊢
  subst hcur htoks
  obtain ⟨hlvl, n, hn, hpos⟩ := hSeg
  replace hlvl : some pc.id = Names.query pnames "0" ∨ some pc.id = Names.query pnames "1" :=
    hlvl
  replace hn : (Names.get_name_string pnames c.id).bind pyInt = some n := hn
  have hwv : curIs ⟨pc, forTok :: c :: cycTok :: e :: es, pnames, pdev, pec, peml⟩
      "waveform" = false := by
    rcases hlvl with h | h
    · exact curIs_false_of_query "waveform" h (by decide)
    · exact curIs_false_of_query "waveform" h (by decide)
  have hlv : (curIs ⟨pc, forTok :: c :: cycTok :: e :: es, pnames, pdev, pec, peml⟩ "0"
      || curIs ⟨pc, forTok :: c :: cycTok :: e :: es, pnames, pdev, pec, peml⟩ "1") = true := by
    rcases hlvl with h | h
    · rw [@curIs_true_of ⟨pc, forTok :: c :: cycTok :: e :: es, pnames, pdev, pec, peml⟩ "0" h]
      simp
    · rw [@curIs_true_of ⟨pc, forTok :: c :: cycTok :: e :: es, pnames, pdev, pec, peml⟩ "1" h]
      simp
  have h₁ : curIs ⟨forTok, c :: cycTok :: e :: es, pnames, pdev, pec, peml⟩ "for" = true :=
    curIs_true_of _ hfor
  have h₂ : curIs ⟨cycTok, e :: es, pnames, pdev, pec, peml⟩ "cycles" = true :=
    curIs_true_of _ hcyc
  have hn' : curIntValue ⟨c, cycTok :: e :: es, pnames, pdev, pec, peml⟩ = some n := hn
  have hsv : segValue pnames c = n := by
    simp [segValue, hn]
  simp only [siggenLoop, hwv, Bool.false_eq_true, if_false, hlv, not_true, pnext,
    h₁, h₂, hn', hsv]
  simp only [if_neg (by omega : ¬ n = 0)]
  have hlvval : (curIntValue ⟨pc, forTok :: c :: cycTok :: e :: es, pnames, pdev, pec, peml⟩).getD 0
      = segValue pnames pc := rfl
  simp [hlvval, hsv]

/-- Traversing the SIGGEN loop over an encoded segment list. -/
theorem siggenLoop_encode (segs : List (PSym × PSym)) :
    ∀ (fuel : Nat) (wf : List Nat) (complete : Bool) (p : ParserState)
      (forTok cycTok t : PSym) (ts : List PSym),
      segs.length < fuel →
      (∀ sp ∈ segs, SegOk p.names sp) →
      some forTok.id = Names.query p.names "for" →
      some cycTok.id = Names.query p.names "cycles" →
      p.cur :: p.toks = segEncode forTok cycTok segs ++ t :: ts →
      siggenLoop fuel wf complete p
        = siggenLoop (fuel - segs.length) (wf ++ segWave p.names segs)
            (complete || !segs.isEmpty) { p with cur := t, toks := ts } := by
  induction segs with
  | nil =>
    intro fuel wf complete p forTok cycTok t ts _ _ _ _ henc
    simp only [segEncode, List.map_nil, List.flatten_nil, List.nil_append] at henc
    have hc : p.cur = t := (List.cons.injEq _ _ _ _).mp henc |>.1
    have ht : p.toks = ts := (List.cons.injEq _ _ _ _).mp henc |>.2
    have hp : { p with cur := t, toks := ts } = p := by
      rw [← hc, ← ht]
    rw [hp]
    simp [segWave]
  | cons sp segs' ih =>
    intro fuel wf complete p forTok cycTok t ts hfuel hok hfor hcyc henc
    obtain ⟨l, c⟩ := sp
    cases fuel with
    | zero => omega
    | succ f =>
      simp only [segEncode, List.map_cons, List.flatten_cons, List.cons_append,
        List.append_assoc] at henc
      have hc : p.cur = l := (List.cons.injEq _ _ _ _).mp henc |>.1
      have ht : p.toks = forTok :: c :: cycTok ::
          (segEncode forTok cycTok segs' ++ t :: ts) := by
        have h2 := (List.cons.injEq _ _ _ _).mp henc |>.2
        simpa [segEncode] using h2
      cases hE : segEncode forTok cycTok segs' ++ t :: ts with
      | nil => simp at hE
      | cons e es =>
        rw [hE] at ht
        have hstep := siggenLoop_step f wf complete p l forTok c cycTok e es
          (hok (l, c) (by simp)) hfor hcyc hc ht
        rw [hstep]
        have hp' : ({ p with cur := e, toks := es } : ParserState).cur ::
            ({ p with cur := e, toks := es } : ParserState).toks
            = segEncode forTok cycTok segs' ++ t :: ts := by
          rw [hE]
        have hih := ih f (wf ++ List.replicate (segValue p.names c) (segValue p.names l))
          true { p with cur := e, toks := es } forTok cycTok t ts
          (by simpa using Nat.lt_of_succ_lt_succ hfuel)
          (fun x hx => hok x (by simp [hx])) hfor hcyc hp'
        rw [hih]
        obtain ⟨pc, ptoks, pnames, pdev, pec, peml⟩ := p
        simp [segWave, List.length_cons, Nat.succ_sub_succ, List.append_assoc]

theorem segEncode_length (forTok cycTok : PSym) (segs : List (PSym × PSym)) :
    (segEncode forTok cycTok segs).length = 4 * segs.length := by
  induction segs with
  | nil => simp [segEncode]
  | cons a l ihl =>
    simp only [segEncode, List.map_cons, List.flatten_cons, List.length_append,
      List.length_cons, List.length_nil] at ihl ⊢
    omega

/-- A valid, non-empty segment list yields a non-empty waveform. -/
theorem segWave_ne_nil {nm : NamesState} {segs : List (PSym × PSym)}
    (hne : segs ≠ []) (hok : ∀ sp ∈ segs, SegOk nm sp) :
    segWave nm segs ≠ [] := by
  obtain ⟨sp, segs', rfl⟩ := List.exists_cons_of_ne_nil hne
  obtain ⟨_, n, hn, hpos⟩ := hok sp (by simp)
  have hv : segValue nm sp.2 = n := by
    simp [segValue, hn]
  simp only [segWave, List.map_cons, List.flatten_cons, hv]
  intro h
  have := congrArg List.length h
  simp at this
  omega

/-- Running `Parser.device` on a well-formed SIGGEN definition whose
segments are all valid: the statement is accepted and every listed name is
passed to `make_device` with the concatenated waveform. -/
theorem parse_device_siggen (p : ParserState) (name_ids : List Nat)
    (segs : List (PSym × PSym)) (forTok cycTok wTok : PSym) (rest : List PSym)
    (hsig : some p.cur.id = Names.query p.names "SIGGEN")
    (hsegs : ∀ sp ∈ segs, SegOk p.names sp)
    (hfor : some forTok.id = Names.query p.names "for")
    (hcyc : some cycTok.id = Names.query p.names "cycles")
    (hwv : some wTok.id = Names.query p.names "waveform")
    (hne : segs ≠ [])
    (htoks : p.toks = segEncode forTok cycTok segs ++ wTok :: rest) :
    Parser.device name_ids p
      = (true,
         { p with
             cur := wTok, toks := rest,
             devices := makeAll name_ids DKind.SIGGEN
               (DQual.wave (segWave p.names segs)) p.devices }) := by
  have hb₁ := curIs_false_of_query "SWITCH" hsig (by decide)
  have hb₂ := curIs_false_of_query "NAND" hsig (by decide)
  have hb₃ := curIs_false_of_query "AND" hsig (by decide)
  have hb₄ := curIs_false_of_query "OR" hsig (by decide)
  have hb₅ := curIs_false_of_query "NOR" hsig (by decide)
  have hb₆ := curIs_false_of_query "CLOCK" hsig (by decide)
  have hb₇ := curIs_false_of_query "DTYPE" hsig (by decide)
  have hb₈ := curIs_false_of_query "XOR" hsig (by decide)
  have hb₉ := curIs_true_of p hsig
  obtain ⟨sp0, segs', rfl⟩ := List.exists_cons_of_ne_nil hne
  have htoks' : p.toks = sp0.1 :: (forTok :: sp0.2 :: cycTok :: segEncode forTok cycTok segs'
      ++ wTok :: rest) := by
    simpa [segEncode, List.append_assoc] using htoks
  have hp₁ : pnext p =
      { p with
          cur := sp0.1,
          toks := forTok :: sp0.2 :: cycTok :: segEncode forTok cycTok segs' ++ wTok :: rest } :=
    pnext_cons htoks'
  set p₁ : ParserState :=
    { p with
        cur := sp0.1,
        toks := forTok :: sp0.2 :: cycTok :: segEncode forTok cycTok segs' ++ wTok :: rest }
    with hp₁def
  have henc₁ : p₁.cur :: p₁.toks
      = segEncode forTok cycTok (sp0 :: segs') ++ wTok :: rest := by
    simp [hp₁def, segEncode, List.append_assoc]
  have hlen : (sp0 :: segs').length < p₁.toks.length + 2 := by
    rw [hp₁def]
    simp only [List.length_cons, List.length_append, segEncode_length]
    omega
  have hloop := siggenLoop_encode (sp0 :: segs') (p₁.toks.length + 2) [] false p₁
    forTok cycTok wTok rest hlen hsegs hfor hcyc henc₁
  have hfin : p₁.toks.length + 2 - (sp0 :: segs').length
      = (p₁.toks.length + 1 - (sp0 :: segs').length) + 1 := by
    simp only [List.length_cons] at hlen ⊢
    omega
  have hdone : siggenLoop ((p₁.toks.length + 1 - (sp0 :: segs').length) + 1)
      ([] ++ segWave p₁.names (sp0 :: segs')) (false || !(sp0 :: segs').isEmpty)
      { p₁ with cur := wTok, toks := rest }
      = (some (segWave p.names (sp0 :: segs'), true),
         { p with cur := wTok, toks := rest }) := by
    have hw : curIs { p₁ with cur := wTok, toks := rest } "waveform" = true :=
      curIs_true_of _ hwv
    simp [siggenLoop, hw, hp₁def]
  have hnonempty := segWave_ne_nil (List.cons_ne_nil sp0 segs') hsegs
  simp only [Parser.device, hb₁, hb₂, hb₃, hb₄, hb₅, hb₆, hb₇, hb₈, hb₉,
    Bool.false_eq_true, if_false, if_pos rfl, Bool.or_false]
  rw [hp₁]
  rw [hloop, hfin, hdone]
  simp [hnonempty]

/-- A SIGGEN definition whose `waveform` keyword arrives before any
segment is rejected with one reported error and no device call. -/
theorem parse_device_siggen_premature (p : ParserState) (name_ids : List Nat)
    (wTok : PSym) (rest : List PSym)
    (hsig : some p.cur.id = Names.query p.names "SIGGEN")
    (hwv : some wTok.id = Names.query p.names "waveform")
    (htoks : p.toks = wTok :: rest) :
    Parser.device name_ids p
      = (false, perr "Require waveform definition before keyword \'waveform\'"
          { p with cur := wTok, toks := rest }) := by
  have hb₁ := curIs_false_of_query "SWITCH" hsig (by decide)
  have hb₂ := curIs_false_of_query "NAND" hsig (by decide)
  have hb₃ := curIs_false_of_query "AND" hsig (by decide)
  have hb₄ := curIs_false_of_query "OR" hsig (by decide)
  have hb₅ := curIs_false_of_query "NOR" hsig (by decide)
  have hb₆ := curIs_false_of_query "CLOCK" hsig (by decide)
  have hb₇ := curIs_false_of_query "DTYPE" hsig (by decide)
  have hb₈ := curIs_false_of_query "XOR" hsig (by decide)
  have hb₉ := curIs_true_of p hsig
  have hp₁ : pnext p = { p with cur := wTok, toks := rest } := pnext_cons htoks
  have hw : curIs { p with cur := wTok, toks := rest } "waveform" = true :=
    curIs_true_of _ hwv
  simp only [Parser.device, hb₁, hb₂, hb₃, hb₄, hb₅, hb₆, hb₇, hb₈, hb₉,
    Bool.false_eq_true, if_false, if_pos rfl, Bool.or_false]
  rw [hp₁]
  simp [siggenLoop, hw]

/-- A SIGGEN segment with declared cycle count 0 is rejected with one
reported error and no device call, whatever valid segments preceded it. -/
theorem parse_device_siggen_zero (p : ParserState) (name_ids : List Nat)
    (segs : List (PSym × PSym)) (forTok cycTok lvl cnt : PSym) (tail : List PSym)
    (hsig : some p.cur.id = Names.query p.names "SIGGEN")
    (hsegs : ∀ sp ∈ segs, SegOk p.names sp)
    (hfor : some forTok.id = Names.query p.names "for")
    (hcyc : some cycTok.id = Names.query p.names "cycles")
    (hlvl : some lvl.id = Names.query p.names "0" ∨ some lvl.id = Names.query p.names "1")
    (hcnt : (Names.get_name_string p.names cnt.id).bind pyInt = some 0)
    (htoks : p.toks = segEncode forTok cycTok segs ++ lvl :: forTok :: cnt :: tail) :
    Parser.device name_ids p
      = (false, perr "Number of cycles must be greater than 0"
          { p with cur := cnt, toks := tail }) := by
  have hb₁ := curIs_false_of_query "SWITCH" hsig (by decide)
  have hb₂ := curIs_false_of_query "NAND" hsig (by decide)
  have hb₃ := curIs_false_of_query "AND" hsig (by decide)
  have hb₄ := curIs_false_of_query "OR" hsig (by decide)
  have hb₅ := curIs_false_of_query "NOR" hsig (by decide)
  have hb₆ := curIs_false_of_query "CLOCK" hsig (by decide)
  have hb₇ := curIs_false_of_query "DTYPE" hsig (by decide)
  have hb₈ := curIs_false_of_query "XOR" hsig (by decide)
  have hb₉ := curIs_true_of p hsig
  cases hL : segEncode forTok cycTok segs ++ lvl :: forTok :: cnt :: tail with
  | nil => simp at hL
  | cons x xs =>
    rw [hL] at htoks
    have hp₁ : pnext p = { p with cur := x, toks := xs } := pnext_cons htoks
    have henc₁ : ({ p with cur := x, toks := xs } : ParserState).cur ::
        ({ p with cur := x, toks := xs } : ParserState).toks
        = segEncode forTok cycTok segs ++ lvl :: (forTok :: cnt :: tail) := by
      rw [hL]
    have hlen : segs.length < ({ p with cur := x, toks := xs } : ParserState).toks.length + 2 := by
      have hxl : (x :: xs).length
          = (segEncode forTok cycTok segs).length + (lvl :: forTok :: cnt :: tail).length := by
        rw [← hL]
        simp
      simp only [segEncode_length, List.length_cons] at hxl
      simp only [List.length_cons]
      omega
    have hloop := siggenLoop_encode segs
      (({ p with cur := x, toks := xs } : ParserState).toks.length + 2) [] false
      { p with cur := x, toks := xs } forTok cycTok lvl (forTok :: cnt :: tail)
      hlen hsegs hfor hcyc henc₁
    have hfin : ({ p with cur := x, toks := xs } : ParserState).toks.length + 2 - segs.length
        = (({ p with cur := x, toks := xs } : ParserState).toks.length + 1 - segs.length) + 1 := by
      simp only [List.length_cons] at hlen ⊢
      omega
    have hwvf : curIs { p with cur := lvl, toks := forTok :: cnt :: tail } "waveform" = false := by
      rcases hlvl with h | h
      · exact curIs_false_of_query "waveform" h (by decide)
      · exact curIs_false_of_query "waveform" h (by decide)
    have hlv : (curIs { p with cur := lvl, toks := forTok :: cnt :: tail } "0"
        || curIs { p with cur := lvl, toks := forTok :: cnt :: tail } "1") = true := by
      rcases hlvl with h | h
      · rw [@curIs_true_of { p with cur := lvl, toks := forTok :: cnt :: tail } "0" h]
        simp
      · rw [@curIs_true_of { p with cur := lvl, toks := forTok :: cnt :: tail } "1" h]
        simp
    have h₁ : curIs { p with cur := forTok, toks := cnt :: tail } "for" = true :=
      curIs_true_of _ hfor
    have hn' : curIntValue { p with cur := cnt, toks := tail } = some 0 := hcnt
    have hiter : siggenLoop
        ((({ p with cur := x, toks := xs } : ParserState).toks.length + 1 - segs.length) + 1)
        ([] ++ segWave p.names segs) (false || !segs.isEmpty)
        { p with cur := lvl, toks := forTok :: cnt :: tail }
        = (none, perr "Number of cycles must be greater than 0"
            { p with cur := cnt, toks := tail }) := by
      simp [siggenLoop, hwvf, hlv, pnext, h₁, hn']
    simp only [Parser.device, hb₁, hb₂, hb₃, hb₄, hb₅, hb₆, hb₇, hb₈, hb₉,
      Bool.false_eq_true, if_false, if_pos rfl, Bool.or_false]
    rw [hp₁]
    rw [hloop, hfin, hiter]
    simp

/--
C9: for every syntactically valid SIGGEN definition the waveform passed to
the device equals the concatenation, in declaration order, of each
segment's level repeated its declared cycle count; a segment with cycle
count 0 (counts are digit runs, so 0 is the only non-positive value) or a
definition whose `waveform` keyword precedes any segment is rejected with
one reported error and no device is created by that statement.
-/
theorem C9_siggen_waveform :
    (∀ (p : ParserState) (name_ids : List Nat) (segs : List (PSym × PSym))
       (forTok cycTok wTok : PSym) (rest : List PSym),
      some p.cur.id = Names.query p.names "SIGGEN" →
      (∀ sp ∈ segs, SegOk p.names sp) →
      some forTok.id = Names.query p.names "for" →
      some cycTok.id = Names.query p.names "cycles" →
      some wTok.id = Names.query p.names "waveform" →
      segs ≠ [] →
      p.toks = segEncode forTok cycTok segs ++ wTok :: rest →
      (Parser.device name_ids p).1 = true
      ∧ ((Parser.device name_ids p).2).error_count = p.error_count
      ∧ (∀ i ∈ name_ids, p.devices.hasDev i = false →
          (i, DevRec.mk DKind.SIGGEN (DQual.wave (segWave p.names segs)))
            ∈ ((Parser.device name_ids p).2).devices.devs))
    ∧ (∀ (p : ParserState) (name_ids : List Nat) (segs : List (PSym × PSym))
       (forTok cycTok lvl cnt : PSym) (tail : List PSym),
      some p.cur.id = Names.query p.names "SIGGEN" →
      (∀ sp ∈ segs, SegOk p.names sp) →
      some forTok.id = Names.query p.names "for" →
      some cycTok.id = Names.query p.names "cycles" →
      (some lvl.id = Names.query p.names "0" ∨ some lvl.id = Names.query p.names "1") →
      (Names.get_name_string p.names cnt.id).bind pyInt = some 0 →
      p.toks = segEncode forTok cycTok segs ++ lvl :: forTok :: cnt :: tail →
      (Parser.device name_ids p).1 = false
      ∧ ((Parser.device name_ids p).2).error_count = p.error_count + 1
      ∧ ((Parser.device name_ids p).2).devices = p.devices)
    ∧ (∀ (p : ParserState) (name_ids : List Nat) (wTok : PSym) (rest : List PSym),
      some p.cur.id = Names.query p.names "SIGGEN" →
      some wTok.id = Names.query p.names "waveform" →
      p.toks = wTok :: rest →
      (Parser.device name_ids p).1 = false
      ∧ ((Parser.device name_ids p).2).error_count = p.error_count + 1
      ∧ ((Parser.device name_ids p).2).devices = p.devices) := by
  refine ⟨?_, ?_, ?_⟩
  · intro p name_ids segs forTok cycTok wTok rest hsig hsegs hfor hcyc hwv hne htoks
    rw [parse_device_siggen p name_ids segs forTok cycTok wTok rest hsig hsegs hfor
      hcyc hwv hne htoks]
    refine ⟨rfl, rfl, ?_⟩
    intro i hmem hfresh
    exact makeAll_mem_fresh hmem hfresh rfl
  · intro p name_ids segs forTok cycTok lvl cnt tail hsig hsegs hfor hcyc hlvl hcnt htoks
    rw [parse_device_siggen_zero p name_ids segs forTok cycTok lvl cnt tail hsig hsegs
      hfor hcyc hlvl hcnt htoks]
    exact ⟨rfl, rfl, rfl⟩
  · intro p name_ids wTok rest hsig hwv htoks
    rw [parse_device_siggen_premature p name_ids wTok rest hsig hwv htoks]
    exact ⟨rfl, rfl, rfl⟩

/-- Names table for the concrete SIGGEN examples. -/
def namesC9 : NamesState :=
  ⟨["SIGGEN", "for", "cycles", "waveform", "0", "1", "2", "X"], 0⟩

/-- `define X as SIGGEN 1 for 2 cycles waveform` at the point `device` is
entered (current symbol on the SIGGEN token). -/
def pC9 : ParserState :=
  ⟨⟨SymType.NAME, 0⟩,
   [⟨SymType.NUMBER, 5⟩, ⟨SymType.NAME, 1⟩, ⟨SymType.NUMBER, 6⟩, ⟨SymType.NAME, 2⟩,
    ⟨SymType.NAME, 3⟩],
   namesC9, ⟨[]⟩, 0, []⟩

/-- `define X as SIGGEN waveform` (premature `waveform`). -/
def pC9p : ParserState :=
  ⟨⟨SymType.NAME, 0⟩, [⟨SymType.NAME, 3⟩], namesC9, ⟨[]⟩, 0, []⟩

/-- Witness for C9 at concrete inputs. -/
theorem C9_siggen_waveform_witness :
    ((Parser.device [7] pC9).1 = true
      ∧ ((Parser.device [7] pC9).2).error_count = 0
      ∧ (7, DevRec.mk DKind.SIGGEN
            (DQual.wave (segWave namesC9 [(⟨SymType.NUMBER, 5⟩, ⟨SymType.NUMBER, 6⟩)])))
          ∈ ((Parser.device [7] pC9).2).devices.devs)
    ∧ ((Parser.device [7] pC9p).1 = false
      ∧ ((Parser.device [7] pC9p).2).error_count = 1
      ∧ ((Parser.device [7] pC9p).2).devices = pC9p.devices) := by
  constructor
  · have h := C9_siggen_waveform.1 pC9 [7]
      [(⟨SymType.NUMBER, 5⟩, ⟨SymType.NUMBER, 6⟩)]
      ⟨SymType.NAME, 1⟩ ⟨SymType.NAME, 2⟩ ⟨SymType.NAME, 3⟩ []
      (by decide)
      (by
        intro sp hsp
        simp only [List.mem_singleton] at hsp
        subst hsp
        exact ⟨Or.inr (by decide), 2, by decide, by decide⟩)
      (by decide) (by decide) (by decide) (by decide) (by decide)
    exact ⟨h.1, h.2.1, h.2.2 7 (by decide) (by decide)⟩
  · have h := C9_siggen_waveform.2.2 pC9p [7] ⟨SymType.NAME, 3⟩ []
      (by decide) (by decide) (by decide)
    exact ⟨h.1, h.2.1, h.2.2⟩

/--
C2 amended: redefining an already-used device name records NO semantic
error — the error counter is unchanged, the statement is accepted, and
the duplicate definition is silently dropped (`make_device` returns
`DEVICE_PRESENT`, which `Parser.device` ignores for SWITCH, DTYPE, XOR and
SIGGEN definitions).
-/
theorem C2_amended_redefinition_silently_ignored :
    (∀ (p : ParserState) (name_ids : List Nat) (z sTok : PSym) (rest : List PSym),
      some p.cur.id = Names.query p.names "SWITCH" →
      (some z.id = Names.query p.names "0" ∨ some z.id = Names.query p.names "1") →
      some sTok.id = Names.query p.names "state" →
      p.toks = z :: sTok :: rest →
      (∀ i ∈ name_ids, p.devices.hasDev i = true) →
      Parser.device name_ids p = (true, { p with cur := sTok, toks := rest }))
    ∧ (∀ (p : ParserState) (name_ids : List Nat),
      some p.cur.id = Names.query p.names "DTYPE" →
      (∀ i ∈ name_ids, p.devices.hasDev i = true) →
      Parser.device name_ids p = (true, p))
    ∧ (∀ (p : ParserState) (name_ids : List Nat),
      some p.cur.id = Names.query p.names "XOR" →
      (∀ i ∈ name_ids, p.devices.hasDev i = true) →
      Parser.device name_ids p = (true, p))
    ∧ (∀ (p : ParserState) (name_ids : List Nat) (segs : List (PSym × PSym))
       (forTok cycTok wTok : PSym) (rest : List PSym),
      some p.cur.id = Names.query p.names "SIGGEN" →
      (∀ sp ∈ segs, SegOk p.names sp) →
      some forTok.id = Names.query p.names "for" →
      some cycTok.id = Names.query p.names "cycles" →
      some wTok.id = Names.query p.names "waveform" →
      segs ≠ [] →
      p.toks = segEncode forTok cycTok segs ++ wTok :: rest →
      (∀ i ∈ name_ids, p.devices.hasDev i = true) →
      Parser.device name_ids p = (true, { p with cur := wTok, toks := rest })) := by
  refine ⟨?_, ?_, ?_, ?_⟩
  · intro p name_ids z sTok rest hsw hz hst htoks hpres
    have hswt := curIs_true_of p hsw
    have hp₁ : pnext p = { p with cur := z, toks := sTok :: rest } := pnext_cons htoks
    have hp₂ : pnext ({ p with cur := z, toks := sTok :: rest } : ParserState)
        = { p with cur := sTok, toks := rest } :=
      pnext_cons rfl
    have hstt : curIs { p with cur := sTok, toks := rest } "state" = true :=
      curIs_true_of _ hst
    have hmk : makeAll name_ids DKind.SWITCH (DQual.level 0) p.devices = p.devices :=
      makeAll_present hpres
    have hmk1 : makeAll name_ids DKind.SWITCH (DQual.level 1) p.devices = p.devices :=
      makeAll_present hpres
    rcases hz with h | h
    · have h0 : curIs { p with cur := z, toks := sTok :: rest } "0" = true :=
        curIs_true_of _ h
      simp only [Parser.device, hswt, if_pos rfl, hp₁, h0, hp₂, hstt]
      simp [hmk]
    · have h0 : curIs { p with cur := z, toks := sTok :: rest } "0" = false :=
        curIs_false_of_query "0" h (by decide)
      have h1 : curIs { p with cur := z, toks := sTok :: rest } "1" = true :=
        curIs_true_of _ h
      simp only [Parser.device, hswt, if_pos rfl, hp₁, h0, h1, hp₂, hstt]
      simp [hmk1]
  · intro p name_ids hdt hpres
    have hb₁ := curIs_false_of_query "SWITCH" hdt (by decide)
    have hb₂ := curIs_false_of_query "NAND" hdt (by decide)
    have hb₃ := curIs_false_of_query "AND" hdt (by decide)
    have hb₄ := curIs_false_of_query "OR" hdt (by decide)
    have hb₅ := curIs_false_of_query "NOR" hdt (by decide)
    have hb₆ := curIs_false_of_query "CLOCK" hdt (by decide)
    have hb₇ := curIs_true_of p hdt
    have hmk : makeAll name_ids DKind.DTYPE DQual.noQual p.devices = p.devices :=
      makeAll_present hpres
    simp only [Parser.device, hb₁, hb₂, hb₃, hb₄, hb₅, hb₆, hb₇, Bool.false_eq_true,
      if_false, if_pos rfl, Bool.or_false, hmk]
    simp
  · intro p name_ids hxr hpres
    have hb₁ := curIs_false_of_query "SWITCH" hxr (by decide)
    have hb₂ := curIs_false_of_query "NAND" hxr (by decide)
    have hb₃ := curIs_false_of_query "AND" hxr (by decide)
    have hb₄ := curIs_false_of_query "OR" hxr (by decide)
    have hb₅ := curIs_false_of_query "NOR" hxr (by decide)
    have hb₆ := curIs_false_of_query "CLOCK" hxr (by decide)
    have hb₇ := curIs_false_of_query "DTYPE" hxr (by decide)
    have hb₈ := curIs_true_of p hxr
    have hmk : makeAll name_ids DKind.XOR DQual.noQual p.devices = p.devices :=
      makeAll_present hpres
    simp only [Parser.device, hb₁, hb₂, hb₃, hb₄, hb₅, hb₆, hb₇, hb₈, Bool.false_eq_true,
      if_false, if_pos rfl, Bool.or_false, hmk]
    simp
  · intro p name_ids segs forTok cycTok wTok rest hsig hsegs hfor hcyc hwv hne htoks hpres
    rw [parse_device_siggen p name_ids segs forTok cycTok wTok rest hsig hsegs hfor
      hcyc hwv hne htoks]
    rw [makeAll_present hpres]

/-- Names table for the concrete redefinition example. -/
def namesC2 : NamesState := ⟨["SWITCH", "state", "0", "X"], 0⟩

/-- `define X as SWITCH 0 state` entered with `X` (id 3) already defined
as a device. -/
def pC2 : ParserState :=
  ⟨⟨SymType.KEYWORD, 0⟩, [⟨SymType.NUMBER, 2⟩, ⟨SymType.KEYWORD, 1⟩],
   namesC2, ⟨[(3, ⟨DKind.SWITCH, DQual.level 1⟩)]⟩, 0, []⟩

/--
C2 counterexample: redefining the already-used name `X` with a well-formed
`SWITCH` definition leaves the error counter at 0 (no semantic error is
recorded), the statement is accepted, and the device store is unchanged —
refuting the claim that the parse pass records a semantic error for such a
statement.
-/
theorem C2_counterexample_no_error_recorded :
    (Parser.device [3] pC2).1 = true
    ∧ ((Parser.device [3] pC2).2).error_count = 0
    ∧ ((Parser.device [3] pC2).2).devices = pC2.devices := by
  refine ⟨?_, ?_, ?_⟩ <;> rfl

/-- Witness for the amended C2 at concrete inputs. -/
theorem C2_amended_redefinition_silently_ignored_witness :
    Parser.device [3] pC2
      = (true, { pC2 with cur := ⟨SymType.KEYWORD, 1⟩, toks := [] })
    ∧ Parser.device [7] { pC9 with devices := ⟨[(7, DevRec.mk DKind.DTYPE DQual.noQual)]⟩ }
      = (true,
         { pC9 with
             devices := ⟨[(7, DevRec.mk DKind.DTYPE DQual.noQual)]⟩,
             cur := ⟨SymType.NAME, 3⟩, toks := [] }) := by
  constructor
  · exact C2_amended_redefinition_silently_ignored.1 pC2 [3]
      ⟨SymType.NUMBER, 2⟩ ⟨SymType.KEYWORD, 1⟩ [] (by decide) (Or.inl (by decide))
      (by decide) (by decide) (by decide)
  · exact C2_amended_redefinition_silently_ignored.2.2.2
      { pC9 with devices := ⟨[(7, DevRec.mk DKind.DTYPE DQual.noQual)]⟩ } [7]
      [(⟨SymType.NUMBER, 5⟩, ⟨SymType.NUMBER, 6⟩)]
      ⟨SymType.NAME, 1⟩ ⟨SymType.NAME, 2⟩ ⟨SymType.NAME, 3⟩ []
      (by decide)
      (by
        intro sp hsp
        simp only [List.mem_singleton] at hsp
        subst hsp
        exact ⟨Or.inr (by decide), 2, by decide, by decide⟩)
      (by decide) (by decide) (by decide) (by decide) (by decide) (by decide)

/-! ## Claims C5 and C6 — display_error -/

/-- `display_error` increments the counter and appends the message
unconditionally — string or not — and touches neither the file contents
nor the names table. -/
theorem display_error_mutates (m : PyVal) (c : Bool) (s : ScannerState) :
    ((Scanner.display_error m c s).1).error_count = s.error_count + 1
    ∧ ((Scanner.display_error m c s).1).error_message_list = s.error_message_list ++ [m]
    ∧ ((Scanner.display_error m c s).1).content = s.content
    ∧ ((Scanner.display_error m c s).1).names = s.names := by
  obtain ⟨cnt, pos, cur, nm, ec, ls, lls, lc, eml⟩ := s
  cases m <;>
    simp only [Scanner.display_error, Scanner.skip_spaces, displayBoundary] <;>
    split_ifs <;> simp

/-- The result value of `display_error`: `TypeError` exactly for a
non-string message. -/
theorem display_error_result (m : PyVal) (c : Bool) (s : ScannerState) :
    (Scanner.display_error m c s).2
      = (if m.isStr then Except.ok () else Except.error PyErr.typeError) := by
  obtain ⟨cnt, pos, cur, nm, ec, ls, lls, lc, eml⟩ := s
  cases m <;>
    simp only [Scanner.display_error, PyVal.isStr, Scanner.skip_spaces, displayBoundary] <;>
    split_ifs <;> simp_all

/-- Concrete scanner state for the display_error counterexamples. -/
def sC5 : ScannerState :=
  ⟨"define X as Y;\nsecond;\n".toList, 10, some 'a', ⟨[], 0⟩, 0, 0, 0, 0, []⟩

/--
C5 counterexample: `display_error(12)` does raise `TypeError`, but only
after incrementing the error counter and appending the message — the
error state is NOT left unchanged, refuting the claim.
-/
theorem C5_counterexample_state_mutated :
    (Scanner.display_error (PyVal.int 12) true sC5).2 = Except.error PyErr.typeError
    ∧ ((Scanner.display_error (PyVal.int 12) true sC5).1).error_count = sC5.error_count + 1
    ∧ ((Scanner.display_error (PyVal.int 12) true sC5).1).error_message_list
      = [PyVal.int 12] := by
  refine ⟨?_, ?_, ?_⟩ <;> rfl

/--
C5 amended: a non-string message makes `display_error` raise `TypeError`,
but only after the error counter has been incremented and the message
appended to the diagnostic log; a string message performs the same two
mutations and returns normally.
-/
theorem C5_amended_display_error_type_check :
    (∀ (m : PyVal) (c : Bool) (s : ScannerState), m.isStr = false →
      (Scanner.display_error m c s).2 = Except.error PyErr.typeError
      ∧ ((Scanner.display_error m c s).1).error_count = s.error_count + 1
      ∧ ((Scanner.display_error m c s).1).error_message_list
        = s.error_message_list ++ [m])
    ∧ (∀ (m : PyVal) (c : Bool) (s : ScannerState), m.isStr = true →
      (Scanner.display_error m c s).2 = Except.ok ()
      ∧ ((Scanner.display_error m c s).1).error_count = s.error_count + 1
      ∧ ((Scanner.display_error m c s).1).error_message_list
        = s.error_message_list ++ [m]) := by
  constructor
  · intro m c s hm
    refine ⟨?_, (display_error_mutates m c s).1, (display_error_mutates m c s).2.1⟩
    rw [display_error_result, hm]
    rfl
  · intro m c s hm
    refine ⟨?_, (display_error_mutates m c s).1, (display_error_mutates m c s).2.1⟩
    rw [display_error_result, hm]
    rfl

/-- Witness for the amended C5 at concrete inputs. -/
theorem C5_amended_display_error_type_check_witness :
    ((Scanner.display_error (PyVal.int 12) true sC5).2 = Except.error PyErr.typeError
      ∧ ((Scanner.display_error (PyVal.int 12) true sC5).1).error_count = sC5.error_count + 1
      ∧ ((Scanner.display_error (PyVal.int 12) true sC5).1).error_message_list
        = sC5.error_message_list ++ [PyVal.int 12])
    ∧ ((Scanner.display_error (PyVal.str "msg") false sC5).2 = Except.ok ()
      ∧ ((Scanner.display_error (PyVal.str "msg") false sC5).1).error_count
        = sC5.error_count + 1
      ∧ ((Scanner.display_error (PyVal.str "msg") false sC5).1).error_message_list
        = sC5.error_message_list ++ [PyVal.str "msg"]) :=
  ⟨C5_amended_display_error_type_check.1 (PyVal.int 12) true sC5 (by decide),
   C5_amended_display_error_type_check.2 (PyVal.str "msg") false sC5 (by decide)⟩

/--
C6 counterexample: after `display_error` with a string message the read
cursor is NOT restored — here the call was made at offset 10 and the
cursor ends at offset 15 (just past the reprinted line's newline).
-/
theorem C6_counterexample_cursor_moved :
    ((Scanner.display_error (PyVal.str "e") true sC5).1).pos = 15
    ∧ sC5.pos = 10 := by
  constructor <;> rfl

/--
C6 amended: `display_error` with a string message does not restore the
read cursor to its entry position; it leaves the cursor at the end of the
reprinted source line (with `caret`) or at the statement-boundary seek
position (without), and sets `last_semicolon_pos` to that final cursor
position, so the next `get_symbol()` continues from there.
-/
theorem C6_amended_cursor_not_restored :
    ∀ (s : ScannerState) (msg : String) (c : Bool),
      (Scanner.display_error (PyVal.str msg) c s).2 = Except.ok ()
      ∧ ((Scanner.display_error (PyVal.str msg) c s).1).pos
        = (if c then readlineEnd s.content (displaySeekPos s) else displaySeekPos s)
      ∧ ((Scanner.display_error (PyVal.str msg) c s).1).last_semicolon_pos
        = ((Scanner.display_error (PyVal.str msg) c s).1).pos := by
  intro s msg c
  obtain ⟨cnt, pos, cur, nm, ec, ls, lls, lc, eml⟩ := s
  simp only [Scanner.display_error, displaySeekPos, displayBoundary, Scanner.skip_spaces]
  split_ifs <;> simp

/-! ## Claims C3 and C4 — end of parse_network -/

/--
C4: when k ≥ 1 declared inputs lack a connection, the end-of-pass check
reports them in one single aggregated message — the error counter grows by
exactly 1, not by k — and when no input is floating the check leaves the
scanner state untouched.
-/
theorem C4_floating_inputs_aggregated :
    ∀ (nw : NetworkState) (mon : MonitorsState) (s : ScannerState),
      (Network.check_network nw ≠ [] →
        ((Parser.parse_network_end nw mon s).2.1).error_count = s.error_count + 1
        ∧ ((Parser.parse_network_end nw mon s).2.1).error_message_list
          = s.error_message_list
            ++ [PyVal.str ("The following inputs are floating: "
                ++ pyStrList ((Network.check_network nw).map (floatingName s.names)))])
      ∧ (Network.check_network nw = [] →
        (Parser.parse_network_end nw mon s).2.1 = s) := by
  intro nw mon s
  constructor
  · intro hne
    have hlen : (Network.check_network nw).length ≠ 0 := by
      simpa using hne
    simp only [Parser.parse_network_end, hlen, ne_eq, not_false_eq_true, if_true,
      if_pos hlen]
    exact ⟨(display_error_mutates _ false s).1, (display_error_mutates _ false s).2.1⟩
  · intro hem
    simp [Parser.parse_network_end, hem]

/-- Witness for C4 at concrete inputs: one floating input `X.I1` (ids 0
and 1 in the table) and, separately, a fully-wired network. -/
theorem C4_floating_inputs_aggregated_witness :
    (((Parser.parse_network_end ⟨[(0, 1)], []⟩ ⟨[]⟩
        ⟨[], 0, none, ⟨["X", "I1"], 0⟩, 0, 0, 0, 0, []⟩).2.1).error_count = 1
      ∧ ((Parser.parse_network_end ⟨[(0, 1)], []⟩ ⟨[]⟩
        ⟨[], 0, none, ⟨["X", "I1"], 0⟩, 0, 0, 0, 0, []⟩).2.1).error_message_list
        = [PyVal.str "The following inputs are floating: [\'X.I1\']"])
    ∧ (Parser.parse_network_end ⟨[(0, 1)], [(0, 1)]⟩ ⟨[]⟩
        ⟨[], 0, none, ⟨["X", "I1"], 0⟩, 0, 0, 0, 0, []⟩).2.1
      = ⟨[], 0, none, ⟨["X", "I1"], 0⟩, 0, 0, 0, 0, []⟩ := by
  constructor
  · have h := (C4_floating_inputs_aggregated ⟨[(0, 1)], []⟩ ⟨[]⟩
      ⟨[], 0, none, ⟨["X", "I1"], 0⟩, 0, 0, 0, 0, []⟩).1 (by decide)
    refine ⟨h.1, ?_⟩
    rw [h.2]
    rfl
  · exact (C4_floating_inputs_aggregated ⟨[(0, 1)], [(0, 1)]⟩ ⟨[]⟩
      ⟨[], 0, none, ⟨["X", "I1"], 0⟩, 0, 0, 0, 0, []⟩).2 (by decide)

/--
C3: `parse_network` returns `True` exactly when the total accumulated
error count at the end of the pass is zero; with no floating inputs and
zero declared monitors the check only prints a warning — the error count
is unchanged, and the pass still succeeds when it was error-free.
-/
theorem C3_success_iff_zero_errors :
    ∀ (nw : NetworkState) (mon : MonitorsState) (s : ScannerState),
      ((Parser.parse_network_end nw mon s).1 = true
        ↔ ((Parser.parse_network_end nw mon s).2.1).error_count = 0)
      ∧ (Network.check_network nw = [] → mon.monitors_dictionary = [] →
          ((Parser.parse_network_end nw mon s).2.1).error_count = s.error_count
          ∧ (Parser.parse_network_end nw mon s).2.2 = ["Warning: No monitors specified."]
          ∧ ((Parser.parse_network_end nw mon s).1 = true ↔ s.error_count = 0)) := by
  intro nw mon s
  constructor
  · simp only [Parser.parse_network_end]
    split_ifs <;> simp
  · intro hem hmon
    have h₁ : (Parser.parse_network_end nw mon s).2.1 = s :=
      (C4_floating_inputs_aggregated nw mon s).2 hem
    refine ⟨by rw [h₁], ?_, ?_⟩
    · simp [Parser.parse_network_end, hem, hmon]
    · simp [Parser.parse_network_end, hem, hmon]

/-- Witness for C3 at concrete inputs: an error-free state with zero
monitors still succeeds, with only the warning emitted. -/
theorem C3_success_iff_zero_errors_witness :
    ((Parser.parse_network_end ⟨[], []⟩ ⟨[]⟩
        ⟨[], 0, none, ⟨[], 0⟩, 0, 0, 0, 0, []⟩).1 = true
      ↔ ((Parser.parse_network_end ⟨[], []⟩ ⟨[]⟩
        ⟨[], 0, none, ⟨[], 0⟩, 0, 0, 0, 0, []⟩).2.1).error_count = 0)
    ∧ ((Parser.parse_network_end ⟨[], []⟩ ⟨[]⟩
        ⟨[], 0, none, ⟨[], 0⟩, 0, 0, 0, 0, []⟩).2.2
      = ["Warning: No monitors specified."])
    ∧ (Parser.parse_network_end ⟨[], []⟩ ⟨[]⟩
        ⟨[], 0, none, ⟨[], 0⟩, 0, 0, 0, 0, []⟩).1 = true := by
  have h := C3_success_iff_zero_errors ⟨[], []⟩ ⟨[]⟩ ⟨[], 0, none, ⟨[], 0⟩, 0, 0, 0, 0, []⟩
  have h₂ := h.2 (by decide) (by decide)
  exact ⟨h.1, h₂.2.1, h₂.2.2.mpr (by decide)⟩

/-! ## Claim C1 — comment handling -/

theorem skip_spaces_content (s : ScannerState) :
    (Scanner.skip_spaces s).content = s.content := rfl

theorem skip_comment_content (s : ScannerState) :
    (Scanner.skip_comment s).content = s.content := by
  unfold Scanner.skip_comment
  cases (s.content.drop s.pos).findIdx? (· = '#') <;> rfl

theorem skip_comment_pos_ge (s : ScannerState) :
    s.pos ≤ (Scanner.skip_comment s).pos := by
  unfold Scanner.skip_comment
  cases (s.content.drop s.pos).findIdx? (· = '#') with
  | none => simp
  | some i => simp; omega

theorem skip_spaces_pos_of_cur {s : ScannerState} {c : Char}
    (h : (Scanner.skip_spaces s).cur = some c) :
    s.pos < s.content.length ∧ s.pos + 1 ≤ (Scanner.skip_spaces s).pos
    ∧ (Scanner.skip_spaces s).pos ≤ s.content.length := by
  simp only [Scanner.skip_spaces, skipSpacesCore] at h ⊢
  cases hget : s.content.get?
      (s.pos + ((s.content.drop s.pos).takeWhile pyIsSpace).length) with
  | none => rw [hget] at h; simp at h
  | some c' =>
    have hlt : s.pos + ((s.content.drop s.pos).takeWhile pyIsSpace).length
        < s.content.length := by
      by_contra hge
      rw [List.get?_eq_none.mpr (by omega)] at hget
      cases hget
    refine ⟨by omega, ?_, ?_⟩ <;> simp <;> omega

/-- `getSymbolAux` is independent of the fuel once the fuel exceeds the
number of unread characters. -/
theorem getSymbolAux_stable :
    ∀ (fuel : Nat) (s : ScannerState), s.content.length - s.pos < fuel →
    getSymbolAux fuel s = getSymbolAux (fuel + 1) s := by
  intro fuel
  induction fuel with
  | zero => intro s h; omega
  | succ f ih =>
    intro s h
    simp only [getSymbolAux]
    by_cases hc : (Scanner.skip_spaces s).cur = some '#'
    · simp only [hc, if_pos rfl]
      apply ih
      obtain ⟨h₁, h₂, h₃⟩ := skip_spaces_pos_of_cur hc
      have h₄ := skip_comment_pos_ge (Scanner.skip_spaces s)
      rw [skip_comment_content, skip_spaces_content]
      omega
    · simp [hc]

/-- Concrete scanner on a source whose first character is `%`. -/
def sC1 : ScannerState := mkScanner "%x\n;".toList

/--
C1 counterexample: a `%` character is NOT treated as a comment starter —
the very first `get_symbol()` on a source beginning with `%` returns an
INVALID symbol, refuting the claim that `%` never yields one.
-/
theorem C1_counterexample_percent_invalid :
    (Scanner.get_symbol sC1).1.type = SymType.INVALID := by
  rfl

/--
C1 amended: only a pair of `#` characters delimits a (possibly
multi-line) block comment, which is transparent to the token stream
(`get_symbol` returns exactly the symbol it would return starting after
the comment's closing `#`); a `%` character is not a comment starter and
produces an INVALID symbol.  Concretely, a source with `#`-comments
around whitespace tokenizes exactly as the same source with the comments
removed, with no symbol for any commented character.
-/
theorem C1_amended_comment_handling :
    (∀ s : ScannerState, (Scanner.skip_spaces s).cur = some '%' →
      (Scanner.get_symbol s).1.type = SymType.INVALID)
    ∧ (∀ s : ScannerState, (Scanner.skip_spaces s).cur = some '#' →
      Scanner.get_symbol s
        = Scanner.get_symbol (Scanner.skip_comment (Scanner.skip_spaces s)))
    ∧ ((tokenize "a #junk\nmore junk# b;".toList).map (fun y => (y.type, y.id))
        = (tokenize "a  b;".toList).map (fun y => (y.type, y.id))) := by
  refine ⟨?_, ?_, ?_⟩
  · intro s h
    have hne : ¬ ((Scanner.skip_spaces s).cur = some '#') := by
      rw [h]
      decide
    have ha : ('%').isAlpha = false := by decide
    have hd : ('%').isDigit = false := by decide
    simp only [Scanner.get_symbol, getSymbolAux, hne, if_false, classifySym, h, ha, hd]
    simp
  · intro s h
    obtain ⟨h₁, h₂, h₃⟩ := skip_spaces_pos_of_cur h
    have h₄ := skip_comment_pos_ge (Scanner.skip_spaces s)
    have hcon : (Scanner.skip_comment (Scanner.skip_spaces s)).content = s.content := by
      rw [skip_comment_content, skip_spaces_content]
    show getSymbolAux (s.content.length + 1) s = _
    simp only [getSymbolAux, h, if_pos rfl]
    rw [Scanner.get_symbol, hcon]
    apply getSymbolAux_stable
    rw [hcon]
    omega
  · rfl

/-- Witness for the amended C1 at concrete inputs. -/
theorem C1_amended_comment_handling_witness :
    (Scanner.get_symbol sC1).1.type = SymType.INVALID
    ∧ Scanner.get_symbol (mkScanner "#x# b;".toList)
      = Scanner.get_symbol
          (Scanner.skip_comment (Scanner.skip_spaces (mkScanner "#x# b;".toList))) :=
  ⟨C1_amended_comment_handling.1 sC1 rfl,
   C1_amended_comment_handling.2.1 (mkScanner "#x# b;".toList) rfl⟩
